import Mathlib

/-!
Verification development for the duplicate file cleaner
(src/Get_transform/duplicate_file_cleaner.py).

The Python code is embedded shallowly: filesystem state is explicit
(the target directory is an `Option (List String)`, `none` when absent),
per-file copy failures are an oracle `String → Bool`, and the string
processing functions mirror the Python string and regex operations
character by character.
-/

namespace GetTransform

/-- Characters replaced by an underscore by sanitize_filename (the regex
character class of the source). -/
def isIllegalChar (c : Char) : Bool :=
  c = '<' || c = '>' || c = ':' || c = '\"' || c = '/' || c = '\\' ||
  c = '|' || c = '?' || c = '*'

/-- Whitespace characters of the regex class \s used by sanitize_filename. -/
def isPySpace (c : Char) : Bool :=
  c = ' ' || c = '\t' || c = '\n' || c = '\r' || c = '\x0b' || c = '\x0c'

/-- One pass of re.sub of one or more whitespace characters by a single
space, written with a flag recording whether the previous character was
whitespace: every maximal whitespace run becomes one space. -/
def collapseWSAux (prevWS : Bool) : List Char → List Char
  | [] => []
  | c :: rest =>
    if isPySpace c then
      if prevWS then collapseWSAux true rest
      else ' ' :: collapseWSAux true rest
    else c :: collapseWSAux false rest

def collapseWS (l : List Char) : List Char := collapseWSAux false l

/-- Python str.strip: drop leading and trailing whitespace. -/
def pyStrip (l : List Char) : List Char :=
  ((l.dropWhile isPySpace).reverse.dropWhile isPySpace).reverse

/-- Python replace of two consecutive periods by one period: each
non-overlapping occurrence is replaced in a single left-to-right pass. -/
def replaceDots : List Char → List Char
  | '.' :: '.' :: rest => '.' :: replaceDots rest
  | c :: rest => c :: replaceDots rest
  | [] => []

/-- Python replace of the six character notes/ pattern by the empty string:
each non-overlapping occurrence is removed in a single left-to-right pass. -/
def replaceNotes : List Char → List Char
  | 'n' :: 'o' :: 't' :: 'e' :: 's' :: '/' :: rest => replaceNotes rest
  | c :: rest => c :: replaceNotes rest
  | [] => []

/-- DuplicateFileCleaner.sanitize_filename: substitute illegal characters by
an underscore, collapse whitespace runs and strip, replace consecutive period
pairs by a single period, and truncate to 200 characters. -/
def sanitize_filename (title : String) : String :=
  let step1 := title.data.map (fun c => if isIllegalChar c then '_' else c)
  let step2 := pyStrip (collapseWS step1)
  let step3 := replaceDots step2
  String.mk (step3.take 200)

/-- Match of the regex voicenotes_ followed by twelve digits followed by an
underscore, anchored at the current position. -/
def tsMatchAt (l : List Char) : Option (List Char) :=
  if ("voicenotes_".data).isPrefixOf l then
    let rest := l.drop 11
    let ds := rest.take 12
    if ds.length = 12 && ds.all (fun c => c.isDigit) then
      match rest.drop 12 with
      | '_' :: _ => some ds
      | _ => none
    else none
  else none

/-- re.search of the timestamp pattern: the leftmost match wins. -/
def tsSearch : List Char → List Char
  | [] => []
  | c :: rest =>
    match tsMatchAt (c :: rest) with
    | some ds => ds
    | none => tsSearch rest

/-- DuplicateFileCleaner.extract_timestamp_from_folder: the captured twelve
digit group of the first match, the empty string when there is none. -/
def extract_timestamp_from_folder (folder_name : String) : String :=
  String.mk (tsSearch folder_name.data)

/-- A directory entry of the history root: its name and whether it is a
directory. -/
structure Entry where
  name : String
  isDir : Bool
deriving DecidableEq

/-- DuplicateFileCleaner.get_sorted_folders: keep the immediate
sub-directories with a parsable timestamp and sort them ascending by the
timestamp string; an absent root yields the empty list. -/
def get_sorted_folders (root : Option (List Entry)) : List (String × String) :=
  match root with
  | none => []
  | some items =>
    let folders := items.filterMap (fun it =>
      if it.isDir then
        let ts := extract_timestamp_from_folder it.name
        if ts = "" then none else some (ts, it.name)
      else none)
    folders.mergeSort (fun a b => decide (a.1 ≤ b.1))

/-- A hyperlink of the index document: target attribute and rendered text. -/
structure Link where
  href : String
  text : String
deriving DecidableEq

/-- A snapshot folder: the hyperlinks of its index.html (none when the file
is missing or unreadable), whether the notes directory exists, and the file
names inside the notes directory. -/
structure Folder where
  indexLinks : Option (List Link)
  notesPresent : Bool
  notesFiles : List String
deriving DecidableEq

/-- Tail check for the regex of a notes hyperlink: the .html literal must
occur with no newline in between. -/
def hasHtmlTail : List Char → Bool
  | [] => false
  | c :: rest =>
    if (".html".data).isPrefixOf (c :: rest) then true
    else if c = '\n' then false
    else hasHtmlTail rest

/-- re.search of the notes hyperlink pattern: a notes/ literal followed, with
no intervening newline, by a .html literal. -/
def notesHrefMatch : List Char → Bool
  | [] => false
  | c :: rest =>
    (("notes/".data).isPrefixOf (c :: rest) && hasHtmlTail ((c :: rest).drop 6))
    || notesHrefMatch rest

/-- Membership of a key among the first components of an association list
(Python dict membership). -/
def keyMem (k : String) (m : List (String × String)) : Bool :=
  m.any (fun p => decide (p.1 = k))

/-- Python dict assignment: overwrite in place when the key exists, append
otherwise, preserving insertion order. -/
def setKey (m : List (String × String)) (k v : String) :
    List (String × String) :=
  if keyMem k m then m.map (fun p => if p.1 = k then (p.1, v) else p)
  else m ++ [(k, v)]

/-- DuplicateFileCleaner.parse_index_html: map each matching hyperlink
target, with every notes/ occurrence removed, to its stripped text; a missing
index yields the empty mapping. -/
def parse_index_html (f : Folder) : List (String × String) :=
  match f.indexLinks with
  | none => []
  | some links =>
    links.foldl (fun m l =>
      if notesHrefMatch l.href.data then
        let title := pyStrip l.text.data
        if l.href ≠ "" ∧ title ≠ [] then
          setKey m (String.mk (replaceNotes l.href.data)) (String.mk title)
        else m
      else m) []

/-- DuplicateFileCleaner.get_files_in_notes: the set of file names under the
notes directory, empty when the directory is missing. -/
def get_files_in_notes (f : Folder) : List String :=
  if f.notesPresent then f.notesFiles.dedup else []

/-- DuplicateFileCleaner.find_unique_files: set difference in both
directions. -/
def find_unique_files (f1 f2 : Folder) : List String × List String :=
  let files1 := get_files_in_notes f1
  let files2 := get_files_in_notes f2
  (files1.filter (fun x => decide (x ∉ files2)),
   files2.filter (fun x => decide (x ∉ files1)))

/-- DuplicateFileCleaner.find_duplicate_files: union over the older folders
of the intersection with the newest folder's files. -/
def find_duplicate_files (newer : Folder) (olders : List Folder) :
    List String :=
  let newerFiles := get_files_in_notes newer
  olders.foldl (fun acc f =>
    acc ++ ((get_files_in_notes f).filter
      (fun x => decide (x ∈ newerFiles ∧ x ∉ acc)))) []

/-- pathlib stem: the name without its last suffix; a suffix needs a dot that
is neither leading nor trailing. -/
def pathStem (name : String) : String :=
  let l := name.data
  match l.reverse.findIdx? (fun c => decide (c = '.')) with
  | none => name
  | some j =>
    let i := l.length - 1 - j
    if 0 < i ∧ i < l.length - 1 then String.mk (l.take i) else name

/-- The while loop resolving target name collisions: starting from the base
name, append an underscore and 1, 2, ... to the stem until the candidate is
not present; the fuel bounds the iteration (one more candidate than existing
files always suffices). -/
def probeGo (namePart : String) (files : List String) :
    String → Nat → Nat → String
  | cand, _, 0 => cand
  | cand, counter, fuel + 1 =>
    if cand ∈ files then
      probeGo namePart files (namePart ++ "_" ++ Nat.repr counter ++ ".html")
        (counter + 1) fuel
    else cand

/-- Collision resolution entry point used by the copy loops. -/
def probeTarget (namePart base : String) (files : List String) : String :=
  probeGo namePart files base 1 (files.length + 1)

/-- Result dictionary of copy_and_rename_files: either the failure variant
carrying only a message, or the success variant carrying the counters. -/
inductive CopyOutcome where
  | failure (message : String)
  | success (message : String) (totalFiles copied skipped errored : Nat)
      (dryRun : Bool)
deriving DecidableEq

def CopyOutcome.isSuccess : CopyOutcome → Bool
  | .failure _ => false
  | .success _ _ _ _ _ _ => true

def CopyOutcome.totalCount : CopyOutcome → Nat
  | .failure _ => 0
  | .success _ t _ _ _ _ => t

def CopyOutcome.copiedCount : CopyOutcome → Nat
  | .failure _ => 0
  | .success _ _ c _ _ _ => c

def CopyOutcome.skippedCount : CopyOutcome → Nat
  | .failure _ => 0
  | .success _ _ _ s _ _ => s

def CopyOutcome.erroredCount : CopyOutcome → Nat
  | .failure _ => 0
  | .success _ _ _ _ e _ => e

/-- One iteration of the copy loop of copy_and_rename_files over a
(filename, title) entry; the accumulator carries the three counters and the
current contents of the target directory. -/
def copyStep (notes : List String) (dryRun : Bool) (copyFails : String → Bool)
    (acc : Nat × Nat × Nat × List String) (e : String × String) :
    Nat × Nat × Nat × List String :=
  match acc with
  | (c, s, er, files) =>
    if e.1 ∉ notes then (c, s + 1, er, files)
    else
      let stem := sanitize_filename e.2
      let base := stem ++ ".html"
      if dryRun then (c, s, er, files)
      else
        let target := probeTarget (pathStem base) base files
        if copyFails e.1 then (c, s, er + 1, files)
        else (c + 1, s, er, target :: files)

/-- DuplicateFileCleaner.copy_and_rename_files over an explicit target
directory state (none when the directory does not exist) and an oracle
telling which source files fail to copy. -/
def copy_and_rename_files (folder : Folder) (dryRun : Bool)
    (newDir : Option (List String)) (copyFails : String → Bool) :
    CopyOutcome × Option (List String) :=
  let fmap := parse_index_html folder
  if fmap = [] then (.failure "未找到文件标题映射", newDir)
  else if folder.notesPresent then
    let files0 := if dryRun then [] else newDir.getD []
    match fmap.foldl (copyStep folder.notesFiles dryRun copyFails)
        (0, 0, 0, files0) with
    | (c, s, er, files) =>
      (.success "文件复制和重命名完成" fmap.length c s er dryRun,
       if dryRun then newDir else some files)
  else (.failure "notes目录不存在", newDir)

/-- Result dictionary of copy_unique_files_from_multiple_folders. -/
inductive DualOutcome where
  | failure (message : String)
  | success (message : String) (copied skipped errored totalFiles uniq1 uniq2 : Nat)
deriving DecidableEq

def DualOutcome.isSuccess : DualOutcome → Bool
  | .failure _ => false
  | .success _ _ _ _ _ _ _ => true

def DualOutcome.copiedCount : DualOutcome → Nat
  | .failure _ => 0
  | .success _ c _ _ _ _ _ => c

def DualOutcome.skippedCount : DualOutcome → Nat
  | .failure _ => 0
  | .success _ _ s _ _ _ _ => s

def DualOutcome.erroredCount : DualOutcome → Nat
  | .failure _ => 0
  | .success _ _ _ e _ _ _ => e

/-- One iteration of a per-side loop of
copy_unique_files_from_multiple_folders over a unique file name, resolved
only through that side's own title map. -/
def copyStepU (notes : List String) (m : List (String × String))
    (dryRun : Bool) (copyFails : String → Bool)
    (acc : Nat × Nat × Nat × List String) (filename : String) :
    Nat × Nat × Nat × List String :=
  match acc with
  | (c, s, er, files) =>
    match m.find? (fun p => decide (p.1 = filename)) with
    | none => (c, s + 1, er, files)
    | some p =>
      if filename ∉ notes then (c, s + 1, er, files)
      else
        let stem := sanitize_filename p.2
        let base := stem ++ ".html"
        if dryRun then (c, s, er, files)
        else
          let target := probeTarget stem base files
          if copyFails filename then (c, s, er + 1, files)
          else (c + 1, s, er, target :: files)

/-- DuplicateFileCleaner.copy_unique_files_from_multiple_folders over an
explicit target directory state and per-side copy failure oracles; a side
with an empty title map is not iterated at all. -/
def copy_unique_files_from_multiple_folders (f1 f2 : Folder) (dryRun : Bool)
    (newDir : Option (List String)) (copyFails1 copyFails2 : String → Bool) :
    DualOutcome × Option (List String) :=
  let u := find_unique_files f1 f2
  let m1 := parse_index_html f1
  let m2 := parse_index_html f2
  if m1 = [] ∧ m2 = [] then (.failure "未找到任何文件标题映射", newDir)
  else
    let files0 := if dryRun then [] else newDir.getD []
    let a1 := if m1 = [] then ((0, 0, 0, files0) : Nat × Nat × Nat × List String)
              else u.1.foldl (copyStepU f1.notesFiles m1 dryRun copyFails1)
                (0, 0, 0, files0)
    let a2 := if m2 = [] then a1
              else u.2.foldl (copyStepU f2.notesFiles m2 dryRun copyFails2) a1
    match a2 with
    | (c, s, er, files) =>
      (.success "独有文件复制操作完成" c s er (u.1.length + u.2.length)
        u.1.length u.2.length,
       if dryRun then newDir else some files)

/-! ### Helper lemmas -/

theorem notesPresent_false_failure (folder : Folder) (dry : Bool)
    (nd : Option (List String)) (cf : String → Bool)
    (hmap : parse_index_html folder ≠ [])
    (hnotes : folder.notesPresent = false) :
    copy_and_rename_files folder dry nd cf = (.failure "notes目录不存在", nd) := by
  simp only [copy_and_rename_files]
  rw [if_neg hmap, hnotes]
  simp

/-! ### Claim C1 -/

/-- C1 counterexample: sanitize does not collapse a maximal run of three
periods to a single period; sanitize of a, three periods, b yields a, two
periods, b, which still contains two adjacent periods. -/
theorem sanitize_period_run_cex :
    sanitize_filename "a...b" = "a..b" ∧ sanitize_filename "a...b" ≠ "a.b" := by
  decide

/-! ### Claim C2 -/

/-- C2 counterexample: a snapshot whose notes sub-directory does not exist
but whose title mapping is non-empty makes the single-snapshot transfer
return a failure result, not a success result. -/
theorem missing_notes_hard_failure_cex :
    parse_index_html ⟨some [⟨"notes/a.html", "T"⟩], false, []⟩ ≠ [] ∧
    copy_and_rename_files ⟨some [⟨"notes/a.html", "T"⟩], false, []⟩ false
      (some []) (fun _ => false) = (.failure "notes目录不存在", some []) := by
  decide

/-- C2 amended: in single-snapshot transfer a missing notes sub-directory is
an operation-level failure (even with a non-empty title mapping), while the
dual-snapshot transfer returns a success result whenever at least one title
mapping is non-empty, absorbing every other miss into the counters. -/
theorem missing_notes_failure_amended :
    (∀ folder dry nd cf, parse_index_html folder ≠ [] →
      folder.notesPresent = false →
      copy_and_rename_files folder dry nd cf = (.failure "notes目录不存在", nd)) ∧
    (∀ f1 f2 dry nd cf1 cf2,
      ¬(parse_index_html f1 = [] ∧ parse_index_html f2 = []) →
      (copy_unique_files_from_multiple_folders f1 f2 dry nd cf1 cf2).1.isSuccess
        = true) := by
  constructor
  · exact notesPresent_false_failure
  · intro f1 f2 dry nd cf1 cf2 h
    simp only [copy_unique_files_from_multiple_folders]
    rw [if_neg h]
    rfl

/-- C2 witness for the amended theorem, at concrete inputs. -/
theorem missing_notes_failure_amended_witness :
    copy_and_rename_files ⟨some [⟨"notes/b.html", "U"⟩], false, ["b.html"]⟩ true
      none (fun _ => false) = (.failure "notes目录不存在", none) ∧
    (copy_unique_files_from_multiple_folders ⟨none, false, []⟩
      ⟨some [⟨"notes/c.html", "V"⟩], false, []⟩ true none
      (fun _ => false) (fun _ => false)).1.isSuccess = true :=
  ⟨missing_notes_failure_amended.1 _ _ _ _ (by decide) rfl,
   missing_notes_failure_amended.2 _ _ _ _ _ _ (by decide)⟩

/-! ### Claim C4 -/

/-- C4: an empty title mapping (the single snapshot's mapping, or both
mappings in the dual transfer) makes the operation return the
no-title-mapping failure and leave the target directory state untouched:
no directory is created and no file is copied. -/
theorem empty_title_map_no_mutation :
    (∀ folder dry nd cf, parse_index_html folder = [] →
      copy_and_rename_files folder dry nd cf =
        (.failure "未找到文件标题映射", nd)) ∧
    (∀ f1 f2 dry nd cf1 cf2,
      parse_index_html f1 = [] → parse_index_html f2 = [] →
      copy_unique_files_from_multiple_folders f1 f2 dry nd cf1 cf2 =
        (.failure "未找到任何文件标题映射", nd)) := by
  constructor
  · intro folder dry nd cf h
    simp only [copy_and_rename_files]
    rw [if_pos h]
  · intro f1 f2 dry nd cf1 cf2 h1 h2
    simp only [copy_unique_files_from_multiple_folders]
    rw [if_pos ⟨h1, h2⟩]

/-- C4 witness at concrete inputs: an absent index document on the relevant
side(s) yields the failure result and an untouched (absent) target
directory. -/
theorem empty_title_map_no_mutation_witness :
    copy_and_rename_files ⟨none, true, ["a.html"]⟩ false none (fun _ => false)
      = (.failure "未找到文件标题映射", none) ∧
    copy_unique_files_from_multiple_folders ⟨none, true, ["a.html"]⟩
      ⟨none, false, []⟩ false none (fun _ => false) (fun _ => false)
      = (.failure "未找到任何文件标题映射", none) :=
  ⟨empty_title_map_no_mutation.1 _ _ _ _ rfl,
   empty_title_map_no_mutation.2 _ _ _ _ _ _ rfl rfl⟩

/-! ### Claim C6 -/

/-- C6: in simulate (dry-run) mode neither transfer operation mutates the
filesystem: the target directory state after the call is exactly the state
before it, for every input configuration (in particular an absent target
directory stays absent, and no file is ever written or removed). -/
theorem dry_run_no_mutation :
    (∀ folder nd cf, (copy_and_rename_files folder true nd cf).2 = nd) ∧
    (∀ f1 f2 nd cf1 cf2,
      (copy_unique_files_from_multiple_folders f1 f2 true nd cf1 cf2).2 = nd) := by
  constructor
  · intro folder nd cf
    simp only [copy_and_rename_files]
    split
    · rfl
    · split
      · rfl
      · rfl
  · intro f1 f2 nd cf1 cf2
    simp only [copy_unique_files_from_multiple_folders]
    split
    · rfl
    · rfl

/-! ### Claim C7 -/

/-- C7: in non-simulated mode, when the target directory starts empty and
several source files all carry the title Note, the copy pass writes
Note.html for the first and deterministic numeric suffixes for the
collisions: two sources give Note.html and Note_1.html, a third gives
Note_2.html, and every counter reports a copy with no overwrite. -/
theorem collision_suffix_resolution :
    copy_and_rename_files ⟨some [⟨"notes/f1.html", "Note"⟩,
        ⟨"notes/f2.html", "Note"⟩], true, ["f1.html", "f2.html"]⟩ false
      (some []) (fun _ => false) =
      (.success "文件复制和重命名完成" 2 2 0 0 false,
       some ["Note_1.html", "Note.html"]) ∧
    copy_and_rename_files ⟨some [⟨"notes/f1.html", "Note"⟩,
        ⟨"notes/f2.html", "Note"⟩, ⟨"notes/f3.html", "Note"⟩], true,
        ["f1.html", "f2.html", "f3.html"]⟩ false
      (some []) (fun _ => false) =
      (.success "文件复制和重命名完成" 3 3 0 0 false,
       some ["Note_2.html", "Note_1.html", "Note.html"]) := by
  decide

/-! ### Claim C10 -/

theorem copyStep_dry_counters (notes : List String) (cf : String → Bool)
    (acc : Nat × Nat × Nat × List String) (e : String × String) :
    (copyStep notes true cf acc e).1 = acc.1 ∧
    (copyStep notes true cf acc e).2.2.1 = acc.2.2.1 := by
  obtain ⟨c, s, er, files⟩ := acc
  simp only [copyStep]
  split
  · exact ⟨rfl, rfl⟩
  · exact ⟨rfl, rfl⟩

theorem foldl_copyStep_dry (notes : List String) (cf : String → Bool)
    (l : List (String × String)) (acc : Nat × Nat × Nat × List String) :
    (l.foldl (copyStep notes true cf) acc).1 = acc.1 ∧
    (l.foldl (copyStep notes true cf) acc).2.2.1 = acc.2.2.1 := by
  induction l generalizing acc with
  | nil => exact ⟨rfl, rfl⟩
  | cons e rest ih =>
    simp only [List.foldl_cons]
    have hstep := copyStep_dry_counters notes cf acc e
    have hrest := ih (copyStep notes true cf acc e)
    exact ⟨hrest.1.trans hstep.1, hrest.2.trans hstep.2⟩

theorem foldl_copyStep_total (notes : List String) (cf : String → Bool)
    (l : List (String × String)) (acc : Nat × Nat × Nat × List String) :
    (l.foldl (copyStep notes false cf) acc).1 +
    (l.foldl (copyStep notes false cf) acc).2.1 +
    (l.foldl (copyStep notes false cf) acc).2.2.1 =
      acc.1 + acc.2.1 + acc.2.2.1 + l.length := by
  induction l generalizing acc with
  | nil => simp
  | cons e rest ih =>
    obtain ⟨c, s, er, files⟩ := acc
    simp only [List.foldl_cons]
    rw [ih]
    simp only [copyStep]
    split
    · simp; omega
    · split
      · simp at *
      · split
        · simp; omega
        · simp; omega

/-- C10: in dry-run mode the single-snapshot transfer reports zero copied
files and zero errors whatever it previews, and in non-simulated mode the
three counters copied, skipped and errored always sum to the size of the
title mapping reported as total. -/
theorem single_transfer_counter_invariants :
    (∀ folder nd cf,
      (copy_and_rename_files folder true nd cf).1.copiedCount = 0 ∧
      (copy_and_rename_files folder true nd cf).1.erroredCount = 0) ∧
    (∀ folder nd cf,
      (copy_and_rename_files folder false nd cf).1.copiedCount +
      (copy_and_rename_files folder false nd cf).1.skippedCount +
      (copy_and_rename_files folder false nd cf).1.erroredCount =
      (copy_and_rename_files folder false nd cf).1.totalCount) := by
  constructor
  · intro folder nd cf
    simp only [copy_and_rename_files]
    split
    · exact ⟨rfl, rfl⟩
    · split
      · have h := foldl_copyStep_dry folder.notesFiles cf
          (parse_index_html folder) (0, 0, 0, if true then [] else nd.getD [])
        exact ⟨h.1, h.2⟩
      · exact ⟨rfl, rfl⟩
  · intro folder nd cf
    simp only [copy_and_rename_files]
    split
    · rfl
    · split
      · have h := foldl_copyStep_total folder.notesFiles cf
          (parse_index_html folder) (0, 0, 0, if false then [] else nd.getD [])
        simpa using h
      · rfl

/-! ### Claim C3 -/

/-- C3 counterexample: with an empty title map on side one and a non-empty
map on side two, the file unique to side one is not counted as skipped at
all (the returned skipped count is zero), although it is absent from side
one's own title mapping. -/
theorem empty_map_side_not_skipped_cex :
    (find_unique_files ⟨none, true, ["x.html"]⟩
        ⟨some [⟨"notes/x.html", "TX"⟩, ⟨"notes/y.html", "TY"⟩], true,
          ["y.html"]⟩).1 = ["x.html"] ∧
    parse_index_html (⟨none, true, ["x.html"]⟩ : Folder) = [] ∧
    copy_unique_files_from_multiple_folders ⟨none, true, ["x.html"]⟩
      ⟨some [⟨"notes/x.html", "TX"⟩, ⟨"notes/y.html", "TY"⟩], true, ["y.html"]⟩
      false (some []) (fun _ => false) (fun _ => false) =
      (.success "独有文件复制操作完成" 1 0 0 2 1 1, some ["TY.html"]) := by
  decide

/-- A unique file name the per-side loop counts as skipped: absent from the
side's own title map, or mapped but with a missing source file. -/
def sideSkips (m : List (String × String)) (notes : List String)
    (filename : String) : Bool :=
  (m.find? (fun p => decide (p.1 = filename))).isNone || decide (filename ∉ notes)

theorem copyStepU_skipped_step (notes : List String)
    (m : List (String × String)) (dry : Bool) (cf : String → Bool)
    (acc : Nat × Nat × Nat × List String) (x : String) :
    (copyStepU notes m dry cf acc x).2.1 =
      acc.2.1 + (if sideSkips m notes x then 1 else 0) := by
  obtain ⟨c, s, er, files⟩ := acc
  simp only [copyStepU]
  split
  · rename_i heq
    simp [sideSkips, heq]
  · rename_i p heq
    simp only [sideSkips, heq, Option.isNone_some, Bool.false_or]
    by_cases hx : x ∉ notes
    · simp [hx]
    · simp only [if_neg hx]
      rw [decide_eq_false hx]
      split
      · simp
      · split <;> simp

theorem foldl_copyStepU_skipped (notes : List String)
    (m : List (String × String)) (dry : Bool) (cf : String → Bool)
    (l : List String) (acc : Nat × Nat × Nat × List String) :
    (l.foldl (copyStepU notes m dry cf) acc).2.1 =
      acc.2.1 + (l.filter (sideSkips m notes)).length := by
  induction l generalizing acc with
  | nil => simp
  | cons x rest ih =>
    simp only [List.foldl_cons]
    rw [ih, copyStepU_skipped_step, List.filter_cons]
    by_cases hx : sideSkips m notes x = true
    · simp [hx]
      omega
    · simp only [Bool.not_eq_true] at hx
      simp [hx]

/-- C3 amended: a filename unique to one side and absent from that side's
own title mapping is counted as skipped only when that side's mapping is
non-empty; a side whose mapping is entirely empty contributes nothing to the
skipped count (its unique files are silently ignored), and skip accounting
for a side depends only on that side's own map, never the other side's. -/
theorem dual_skip_accounting_amended :
    ∀ f1 f2 dry nd cf1 cf2,
      ¬(parse_index_html f1 = [] ∧ parse_index_html f2 = []) →
      (copy_unique_files_from_multiple_folders f1 f2 dry nd cf1 cf2).1.skippedCount
        =
      (if parse_index_html f1 = [] then 0
       else ((find_unique_files f1 f2).1.filter
              (sideSkips (parse_index_html f1) f1.notesFiles)).length) +
      (if parse_index_html f2 = [] then 0
       else ((find_unique_files f1 f2).2.filter
              (sideSkips (parse_index_html f2) f2.notesFiles)).length) := by
  intro f1 f2 dry nd cf1 cf2 h
  simp only [copy_unique_files_from_multiple_folders]
  rw [if_neg h]
  by_cases h1 : parse_index_html f1 = []
  · by_cases h2 : parse_index_html f2 = []
    · exact absurd ⟨h1, h2⟩ h
    · simp [h1, h2, DualOutcome.skippedCount, foldl_copyStepU_skipped]
  · by_cases h2 : parse_index_html f2 = []
    · simp [h1, h2, DualOutcome.skippedCount, foldl_copyStepU_skipped]
    · simp [h1, h2, DualOutcome.skippedCount, foldl_copyStepU_skipped]

/-- C3 witness for the amended theorem at a concrete input: side one has the
empty map (contributing zero skips), side two skips its unmapped unique
file. -/
theorem dual_skip_accounting_amended_witness :
    (copy_unique_files_from_multiple_folders ⟨none, true, ["x.html"]⟩
      ⟨some [⟨"notes/z.html", "TZ"⟩], true, ["y.html"]⟩ false (some [])
      (fun _ => false) (fun _ => false)).1.skippedCount =
      (if parse_index_html (⟨none, true, ["x.html"]⟩ : Folder) = [] then 0
       else ((find_unique_files ⟨none, true, ["x.html"]⟩
                ⟨some [⟨"notes/z.html", "TZ"⟩], true, ["y.html"]⟩).1.filter
              (sideSkips (parse_index_html (⟨none, true, ["x.html"]⟩ : Folder))
                ["x.html"])).length) +
      (if parse_index_html (⟨some [⟨"notes/z.html", "TZ"⟩], true,
            ["y.html"]⟩ : Folder) = [] then 0
       else ((find_unique_files ⟨none, true, ["x.html"]⟩
                ⟨some [⟨"notes/z.html", "TZ"⟩], true, ["y.html"]⟩).2.filter
              (sideSkips (parse_index_html (⟨some [⟨"notes/z.html", "TZ"⟩],
                true, ["y.html"]⟩ : Folder)) ["y.html"])).length) :=
  dual_skip_accounting_amended _ _ _ (some []) _ _ (by decide)

/-! ### Claim C8 -/

theorem find_dup_foldl_mem (newerFiles : List String) (olders : List Folder)
    (acc : List String) (x : String) :
    x ∈ olders.foldl (fun acc f => acc ++ ((get_files_in_notes f).filter
        (fun y => decide (y ∈ newerFiles ∧ y ∉ acc)))) acc ↔
      x ∈ acc ∨ (x ∈ newerFiles ∧ ∃ f ∈ olders, x ∈ get_files_in_notes f) := by
  induction olders generalizing acc with
  | nil => simp
  | cons f rest ih =>
    simp only [List.foldl_cons]
    rw [ih]
    simp only [List.mem_append, List.mem_filter, decide_eq_true_eq,
      List.mem_cons]
    constructor
    · rintro ((h | ⟨hf, hn, _⟩) | ⟨hn, g, hg, hgf⟩)
      · exact Or.inl h
      · exact Or.inr ⟨hn, f, Or.inl rfl, hf⟩
      · exact Or.inr ⟨hn, g, Or.inr hg, hgf⟩
    · rintro (h | ⟨hn, g, (rfl | hg), hgf⟩)
      · exact Or.inl (Or.inl h)
      · by_cases ha : x ∈ acc
        · exact Or.inl (Or.inl ha)
        · exact Or.inl (Or.inr ⟨hgf, hn, ha⟩)
      · exact Or.inr ⟨hn, g, hg, hgf⟩

/-- C8: find_unique_files is the standard set difference in both directions
(with the stated concrete example), and find_duplicate_files collects
exactly the file names present in the newest folder and in at least one
older folder. -/
theorem set_comparator_spec :
    (∀ f1 f2 x,
      (x ∈ (find_unique_files f1 f2).1 ↔
        x ∈ get_files_in_notes f1 ∧ x ∉ get_files_in_notes f2) ∧
      (x ∈ (find_unique_files f1 f2).2 ↔
        x ∈ get_files_in_notes f2 ∧ x ∉ get_files_in_notes f1)) ∧
    find_unique_files ⟨none, true, ["a", "b"]⟩ ⟨none, true, ["b", "c"]⟩
      = (["a"], ["c"]) ∧
    (∀ newer olders x,
      x ∈ find_duplicate_files newer olders ↔
        x ∈ get_files_in_notes newer ∧
          ∃ f ∈ olders, x ∈ get_files_in_notes f) := by
  refine ⟨?_, by decide, ?_⟩
  · intro f1 f2 x
    constructor <;> simp [find_unique_files, List.mem_filter]
  · intro newer olders x
    simp only [find_duplicate_files]
    rw [find_dup_foldl_mem]
    simp

/-! ### Claim C5 -/

theorem isPrefixOf_append (l r : List Char) : l.isPrefixOf (l ++ r) = true := by
  induction l with
  | nil => simp [List.isPrefixOf]
  | cons c cs ih => simp [List.isPrefixOf, ih]

theorem extract_voicenotes_pattern (ds suffix : List Char)
    (hlen : ds.length = 12) (hdig : ds.all (fun c => c.isDigit) = true) :
    extract_timestamp_from_folder
      (String.mk ("voicenotes_".data ++ (ds ++ '_' :: suffix)))
      = String.mk ds := by
  unfold extract_timestamp_from_folder
  have hdata : (String.mk ("voicenotes_".data ++ (ds ++ '_' :: suffix))).data
      = "voicenotes_".data ++ (ds ++ '_' :: suffix) := rfl
  rw [hdata]
  rw [show ("voicenotes_".data ++ (ds ++ '_' :: suffix))
      = 'v' :: ("oicenotes_".data ++ (ds ++ '_' :: suffix)) from rfl]
  rw [tsSearch]
  rw [show ('v' :: ("oicenotes_".data ++ (ds ++ '_' :: suffix)))
      = "voicenotes_".data ++ (ds ++ '_' :: suffix) from rfl]
  unfold tsMatchAt
  rw [isPrefixOf_append]
  simp only [if_true]
  rw [show (11 : Nat) = ("voicenotes_".data).length from rfl, List.drop_left]
  rw [show (12 : Nat) = ds.length from hlen.symm, List.take_left,
    List.drop_left]
  rw [hlen, hdig]
  simp

/-- C5: snapshot discovery returns exactly the immediate sub-directories
whose names yield a non-empty extracted timestamp, as pairs of the timestamp
and the name; the result is sorted ascending by the timestamp string; and
for every name of the shape voicenotes_ followed by twelve digits and an
underscore, the extracted sort key is exactly that twelve digit substring. -/
theorem snapshot_discovery_spec :
    (∀ (items : List Entry) (p : String × String),
      p ∈ get_sorted_folders (some items) ↔
        ∃ e, e ∈ items ∧ e.isDir = true ∧
          extract_timestamp_from_folder e.name = p.1 ∧ p.1 ≠ "" ∧
          p.2 = e.name) ∧
    (∀ root, (get_sorted_folders root).Pairwise (fun a b => a.1 ≤ b.1)) ∧
    (∀ ds suffix : List Char, ds.length = 12 →
      ds.all (fun c => c.isDigit) = true →
      extract_timestamp_from_folder
        (String.mk ("voicenotes_".data ++ (ds ++ '_' :: suffix)))
        = String.mk ds) := by
  refine ⟨?_, ?_, extract_voicenotes_pattern⟩
  · intro items p
    simp only [get_sorted_folders]
    rw [List.mem_mergeSort, List.mem_filterMap]
    constructor
    · rintro ⟨e, he, hsome⟩
      by_cases hd : e.isDir = true
      · rw [if_pos hd] at hsome
        by_cases hts : extract_timestamp_from_folder e.name = ""
        · rw [if_pos hts] at hsome
          exact absurd hsome (by simp)
        · rw [if_neg hts] at hsome
          cases hsome
          exact ⟨e, he, hd, rfl, hts, rfl⟩
      · rw [if_neg hd] at hsome
        exact absurd hsome (by simp)
    · rintro ⟨e, he, hd, hts, hne, hp2⟩
      refine ⟨e, he, ?_⟩
      rw [if_pos hd, if_neg (by rw [hts]; exact hne), hts, ← hp2]
  · intro root
    cases root with
    | none => simp [get_sorted_folders]
    | some items =>
      simp only [get_sorted_folders]
      have h := @List.sorted_mergeSort (String × String)
        (fun a b => decide (a.1 ≤ b.1))
        (fun a b c hab hbc => by
          simp only [decide_eq_true_eq] at *
          exact le_trans hab hbc)
        (fun a b => by
          simp only [Bool.or_eq_true, decide_eq_true_eq]
          exact le_total a.1 b.1)
        (items.filterMap (fun it =>
          if it.isDir then
            if extract_timestamp_from_folder it.name = "" then none
            else some (extract_timestamp_from_folder it.name, it.name)
          else none))
      exact h.imp (fun hab => by simpa using hab)

/-- C5 witness: the pattern lemma applied at a concrete folder name. -/
theorem snapshot_discovery_spec_witness :
    extract_timestamp_from_folder
      (String.mk ("voicenotes_".data ++ ("202510171604".data ++ '_' :: "getnotes".data)))
      = String.mk "202510171604".data :=
  snapshot_discovery_spec.2.2 "202510171604".data "getnotes".data
    (by decide) (by decide)

/-! ### Claim C1 (amended) -/

theorem dropWhile_of_all_neg (p : Char → Bool) (l : List Char)
    (h : ∀ c ∈ l, p c = false) : l.dropWhile p = l := by
  cases l with
  | nil => rfl
  | cons c rest =>
    rw [List.dropWhile_cons, h c (by simp)]
    simp

theorem pyStrip_no_ws (l : List Char) (h : ∀ c ∈ l, isPySpace c = false) :
    pyStrip l = l := by
  unfold pyStrip
  rw [dropWhile_of_all_neg _ _ h]
  rw [dropWhile_of_all_neg _ _ (fun c hc => h c (by simpa using hc))]
  exact List.reverse_reverse l

theorem collapseWSAux_no_ws (l : List Char)
    (h : ∀ c ∈ l, isPySpace c = false) :
    ∀ b, collapseWSAux b l = l := by
  induction l with
  | nil => intro b; rfl
  | cons c rest ih =>
    intro b
    have hc : isPySpace c = false := h c (by simp)
    have hrest : ∀ x ∈ rest, isPySpace x = false :=
      fun x hx => h x (List.mem_cons_of_mem _ hx)
    simp only [collapseWSAux, hc, Bool.false_eq_true, if_false]
    rw [ih hrest]

theorem replaceDots_run : ∀ k,
    replaceDots (List.replicate k '.' ++ ['b']) =
      List.replicate ((k + 1) / 2) '.' ++ ['b']
  | 0 => by decide
  | 1 => by decide
  | (k + 2) => by
    have ih := replaceDots_run k
    have harith : ((k + 2) + 1) / 2 = (k + 1) / 2 + 1 := by omega
    rw [harith]
    rw [show List.replicate (k + 2) '.' ++ ['b']
        = '.' :: ('.' :: (List.replicate k '.' ++ ['b'])) by
      simp [List.replicate_succ]]
    rw [show List.replicate ((k + 1) / 2 + 1) '.' ++ ['b']
        = '.' :: (List.replicate ((k + 1) / 2) '.' ++ ['b']) by
      simp [List.replicate_succ]]
    rw [show replaceDots ('.' :: ('.' :: (List.replicate k '.' ++ ['b'])))
        = '.' :: replaceDots (List.replicate k '.' ++ ['b']) from rfl]
    rw [ih]

/-- C1 amended: sanitize replaces each non-overlapping occurrence of two
consecutive periods by one period in a single left-to-right pass, so a run
of k periods becomes a run of (k+1)/2 periods (rounding down after adding
one): a run of exactly two periods becomes a single period, but a longer
run can leave adjacent periods in the output, as in a, three periods, b
becoming a, two periods, b. -/
theorem sanitize_period_pairs_amended :
    (∀ k, k ≤ 396 →
      sanitize_filename (String.mk ('a' :: (List.replicate k '.' ++ ['b']))) =
        String.mk ('a' :: (List.replicate ((k + 1) / 2) '.' ++ ['b']))) ∧
    sanitize_filename "a..b" = "a.b" ∧
    sanitize_filename "a...b" = "a..b" := by
  refine ⟨?_, by decide, by decide⟩
  intro k hk
  have hnows : ∀ c ∈ 'a' :: (List.replicate k '.' ++ ['b']),
      isPySpace c = false := by
    intro c hc
    rcases List.mem_cons.mp hc with rfl | hc1
    · rfl
    rcases List.mem_append.mp hc1 with hc2 | hc3
    · rw [List.eq_of_mem_replicate hc2]; rfl
    · rcases List.mem_singleton.mp hc3 with rfl; rfl
  simp only [sanitize_filename]
  have hmap : ('a' :: (List.replicate k '.' ++ ['b'])).map
      (fun c => if isIllegalChar c then '_' else c)
      = 'a' :: (List.replicate k '.' ++ ['b']) := by
    simp only [List.map_cons, List.map_append, List.map_replicate,
      List.map_nil,
      show (if isIllegalChar 'a' then '_' else 'a') = 'a' from rfl,
      show (if isIllegalChar '.' then '_' else '.') = '.' from rfl,
      show (if isIllegalChar 'b' then '_' else 'b') = 'b' from rfl]
  rw [hmap]
  rw [show collapseWS ('a' :: (List.replicate k '.' ++ ['b']))
      = collapseWSAux false ('a' :: (List.replicate k '.' ++ ['b'])) from rfl]
  rw [collapseWSAux_no_ws _ hnows false]
  rw [pyStrip_no_ws _ hnows]
  rw [show replaceDots ('a' :: (List.replicate k '.' ++ ['b']))
      = 'a' :: replaceDots (List.replicate k '.' ++ ['b']) from rfl]
  rw [replaceDots_run k]
  rw [List.take_of_length_le]
  simp only [List.length_cons, List.length_append, List.length_replicate,
    List.length_nil]
  omega

/-- C1 witness for the amended theorem at a run of three periods. -/
theorem sanitize_period_pairs_amended_witness :
    sanitize_filename (String.mk ('a' :: (List.replicate 3 '.' ++ ['b']))) =
      String.mk ('a' :: (List.replicate ((3 + 1) / 2) '.' ++ ['b'])) :=
  sanitize_period_pairs_amended.1 3 (by decide)

/-! ### Claim C9 -/

/-- C9 counterexample: for the link target notes/notes/a.html the resolver
key is a.html (every notes/ occurrence removed), not notes/a.html as
stripping only the leading prefix would give. -/
theorem strip_notes_replaceall_cex :
    parse_index_html ⟨some [⟨"notes/notes/a.html", "T"⟩], true, []⟩
      = [("a.html", "T")] ∧
    ("notes/a.html", "T") ∉
      parse_index_html ⟨some [⟨"notes/notes/a.html", "T"⟩], true, []⟩ := by
  decide

/-- Occurrence test of the notes/ pattern anywhere in the character list. -/
def hasNotesOccur : List Char → Bool
  | [] => false
  | c :: rest => ("notes/".data).isPrefixOf (c :: rest) || hasNotesOccur rest

theorem replaceNotes_no_occur :
    ∀ (l : List Char), hasNotesOccur l = false → replaceNotes l = l := by
  intro l
  induction l with
  | nil => intro h; rfl
  | cons c rest ih =>
    intro h
    simp only [hasNotesOccur, Bool.or_eq_false_iff] at h
    obtain ⟨h1, h2⟩ := h
    rw [replaceNotes.eq_def]
    split
    · rename_i rest1 heq
      injection heq with heq1 heq2
      subst heq1
      subst heq2
      rw [show ('o' :: 't' :: 'e' :: 's' :: '/' :: rest1)
          = "otes/".data ++ rest1 from rfl] at h1
      rw [show ('n' :: ("otes/".data ++ rest1))
          = "notes/".data ++ rest1 from rfl] at h1
      rw [isPrefixOf_append] at h1
      simp at h1
    · rename_i c1 rest1 hne1 heq
      injection heq with heq1 heq2
      subst heq1
      subst heq2
      rw [ih h2]
    · rename_i heq
      simp at heq

theorem replaceNotes_strip (rest : List Char)
    (h : hasNotesOccur rest = false) :
    replaceNotes ("notes/".data ++ rest) = rest := by
  rw [show "notes/".data ++ rest
      = 'n' :: 'o' :: 't' :: 'e' :: 's' :: '/' :: rest from rfl]
  rw [show replaceNotes ('n' :: 'o' :: 't' :: 'e' :: 's' :: '/' :: rest)
      = replaceNotes rest from rfl]
  exact replaceNotes_no_occur rest h

/-- C9 amended: the resolver maps the link target with every occurrence of
the notes/ substring removed (Python replace semantics, not a single
leading-prefix strip) to the link's rendered text with leading and trailing
whitespace trimmed; when the target is notes/ followed by a tail containing
no further notes/ occurrence, this coincides with stripping the leading
prefix. -/
theorem parse_index_strip_amended :
    (∀ (href text : String) (present : Bool) (files : List String),
      notesHrefMatch href.data = true →
      pyStrip text.data ≠ [] →
      parse_index_html ⟨some [⟨href, text⟩], present, files⟩ =
        [(String.mk (replaceNotes href.data), String.mk (pyStrip text.data))]) ∧
    (∀ rest : List Char, hasNotesOccur rest = false →
      replaceNotes ("notes/".data ++ rest) = rest) := by
  constructor
  · intro href text present files hmatch htitle
    have hhref : href ≠ "" := by
      intro he
      rw [he] at hmatch
      exact absurd hmatch (by decide)
    simp only [parse_index_html, List.foldl_cons, List.foldl_nil]
    rw [if_pos hmatch, if_pos ⟨hhref, htitle⟩]
    rfl
  · exact replaceNotes_strip

/-- C9 witness for the amended theorem at concrete inputs. -/
theorem parse_index_strip_amended_witness :
    parse_index_html ⟨some [⟨"notes/a.html", " T "⟩], true, []⟩ =
      [(String.mk (replaceNotes "notes/a.html".data),
        String.mk (pyStrip " T ".data))] ∧
    replaceNotes ("notes/".data ++ "a.html".data) = "a.html".data :=
  ⟨parse_index_strip_amended.1 "notes/a.html" " T " true [] (by decide)
      (by decide),
   parse_index_strip_amended.2 "a.html".data (by decide)⟩

end GetTransform
